import Mathlib

/-!
Verification development for the `clipboard-monitor` binary
(`src/extension/rust/clipboard-monitor/src/main.rs` and `protocol.rs`).

The Rust program is shallowly embedded below: pure helper functions become
Lean functions, the stdout/stderr channels become explicit lists of
messages, the polling loop becomes a fold over a list of per-cycle
environment inputs, and Rust panics become `Except.error`.
-/

namespace ClipboardMonitor

/-! ## UTF-8 byte encoding

Rust `String` values are UTF-8; `content.as_bytes()` and `content.len()`
operate on the UTF-8 byte representation.  We model a Rust string as a Lean
`String` (a sequence of Unicode scalar values, exactly as in Rust) and
recover its byte representation with the standard UTF-8 encoder. -/

/-- Standard UTF-8 encoding of a single Unicode scalar value, as a list of
bytes (each `< 256`). -/
def utf8EncodeChar (c : Char) : List Nat :=
  let n := c.toNat
  if n < 0x80 then [n]
  else if n < 0x800 then
    [0xC0 ||| (n >>> 6), 0x80 ||| (n &&& 0x3F)]
  else if n < 0x10000 then
    [0xE0 ||| (n >>> 12), 0x80 ||| ((n >>> 6) &&& 0x3F), 0x80 ||| (n &&& 0x3F)]
  else
    [0xF0 ||| (n >>> 18), 0x80 ||| ((n >>> 12) &&& 0x3F),
     0x80 ||| ((n >>> 6) &&& 0x3F), 0x80 ||| (n &&& 0x3F)]

/-- The UTF-8 bytes of a string: what Rust's `content.as_bytes()` yields. -/
def utf8Bytes (s : String) : List Nat :=
  (s.data.map utf8EncodeChar).flatten

/-! ## MD5 (RFC 1321)

`process_clipboard_content` calls `md5::compute(content.as_bytes())` and
formats the 16-byte digest as 32 lowercase hex characters with
`format!("\x7b:x\x7d", digest)`.  The `md5` crate implements RFC 1321; we embed
that algorithm directly over `Nat` with explicit reduction `% 2^32`. -/

/-- The 64 sine-derived round constants of MD5 (RFC 1321). -/
def md5K : List Nat :=
  [0xd76aa478, 0xe8c7b756, 0x242070db, 0xc1bdceee,
   0xf57c0faf, 0x4787c62a, 0xa8304613, 0xfd469501,
   0x698098d8, 0x8b44f7af, 0xffff5bb1, 0x895cd7be,
   0x6b901122, 0xfd987193, 0xa679438e, 0x49b40821,
   0xf61e2562, 0xc040b340, 0x265e5a51, 0xe9b6c7aa,
   0xd62f105d, 0x02441453, 0xd8a1e681, 0xe7d3fbc8,
   0x21e1cde6, 0xc33707d6, 0xf4d50d87, 0x455a14ed,
   0xa9e3e905, 0xfcefa3f8, 0x676f02d9, 0x8d2a4c8a,
   0xfffa3942, 0x8771f681, 0x6d9d6122, 0xfde5380c,
   0xa4beea44, 0x4bdecfa9, 0xf6bb4b60, 0xbebfbc70,
   0x289b7ec6, 0xeaa127fa, 0xd4ef3085, 0x04881d05,
   0xd9d4d039, 0xe6db99e5, 0x1fa27cf8, 0xc4ac5665,
   0xf4292244, 0x432aff97, 0xab9423a7, 0xfc93a039,
   0x655b59c3, 0x8f0ccc92, 0xffeff47d, 0x85845dd1,
   0x6fa87e4f, 0xfe2ce6e0, 0xa3014314, 0x4e0811a1,
   0xf7537e82, 0xbd3af235, 0x2ad7d2bb, 0xeb86d391]

/-- The per-round left-rotation amounts of MD5 (RFC 1321). -/
def md5S : List Nat :=
  [7, 12, 17, 22, 7, 12, 17, 22, 7, 12, 17, 22, 7, 12, 17, 22,
   5, 9, 14, 20, 5, 9, 14, 20, 5, 9, 14, 20, 5, 9, 14, 20,
   4, 11, 16, 23, 4, 11, 16, 23, 4, 11, 16, 23, 4, 11, 16, 23,
   6, 10, 15, 21, 6, 10, 15, 21, 6, 10, 15, 21, 6, 10, 15, 21]

/-- Left rotation of a 32-bit word (operand assumed `< 2^32`). -/
def rotl32 (x n : Nat) : Nat :=
  ((x <<< n) ||| (x >>> (32 - n))) % 4294967296

/-- MD5 auxiliary function F (round 1). -/
def md5F (b c d : Nat) : Nat := (b &&& c) ||| ((b ^^^ 0xFFFFFFFF) &&& d)

/-- MD5 auxiliary function G (round 2). -/
def md5G (b c d : Nat) : Nat := (b &&& d) ||| (c &&& (d ^^^ 0xFFFFFFFF))

/-- MD5 auxiliary function H (round 3). -/
def md5H (b c d : Nat) : Nat := b ^^^ c ^^^ d

/-- MD5 auxiliary function I (round 4). -/
def md5I (b c d : Nat) : Nat := c ^^^ (b ||| (d ^^^ 0xFFFFFFFF))

/-- Little-endian byte decomposition: `k` bytes of `n`, least significant
first. -/
def leBytes : Nat → Nat → List Nat
  | 0, _ => []
  | k + 1, n => (n % 256) :: leBytes k (n / 256)

/-- Group a byte list into little-endian 32-bit words. -/
def leWords : List Nat → List Nat
  | b0 :: b1 :: b2 :: b3 :: rest =>
      (b0 + 256 * b1 + 65536 * b2 + 16777216 * b3) :: leWords rest
  | _ => []

/-- MD5 padding: append `0x80`, zero bytes up to 56 mod 64, then the
64-bit little-endian bit length of the original message. -/
def md5Pad (msg : List Nat) : List Nat :=
  let len := msg.length
  let padZeros := (55 - len % 64 + 64) % 64
  msg ++ [0x80] ++ List.replicate padZeros 0 ++ leBytes 8 ((8 * len) % 18446744073709551616)

/-- Split a list into 64-byte chunks (fuel-indexed; the fuel is always
sufficient at the call site because every step consumes at least one
element). -/
def chunksGo : Nat → List Nat → List (List Nat)
  | _, [] => []
  | 0, l => [l]
  | fuel + 1, l => l.take 64 :: chunksGo fuel (l.drop 64)

/-- One MD5 round operation, step `i`, on state `(a, b, c, d)` over the
16-word message block `w`. -/
def md5Step (w : List Nat) (st : Nat × Nat × Nat × Nat) (i : Nat) :
    Nat × Nat × Nat × Nat :=
  let (a, b, c, d) := st
  let fg : Nat × Nat :=
    if i < 16 then (md5F b c d, i)
    else if i < 32 then (md5G b c d, (5 * i + 1) % 16)
    else if i < 48 then (md5H b c d, (3 * i + 5) % 16)
    else (md5I b c d, (7 * i) % 16)
  let tmp := (a + fg.1 + md5K.getD i 0 + w.getD fg.2 0) % 4294967296
  (d, (b + rotl32 tmp (md5S.getD i 0)) % 4294967296, b, c)

/-- Process one 64-byte block: run the 64 round operations and add the
result to the incoming state, all modulo `2^32`. -/
def md5Block (h : Nat × Nat × Nat × Nat) (block : List Nat) :
    Nat × Nat × Nat × Nat :=
  let w := leWords block
  let (a, b, c, d) := (List.range 64).foldl (md5Step w) h
  ((h.1 + a) % 4294967296, (h.2.1 + b) % 4294967296,
   (h.2.2.1 + c) % 4294967296, (h.2.2.2 + d) % 4294967296)

/-- The MD5 state after hashing a whole byte message. -/
def md5Compute (msg : List Nat) : Nat × Nat × Nat × Nat :=
  let padded := md5Pad msg
  (chunksGo padded.length padded).foldl md5Block
    (0x67452301, 0xefcdab89, 0x98badcfe, 0x10325476)

/-- Lowercase hexadecimal digit for a value `< 16`. -/
def hexDigit (n : Nat) : Char :=
  if n < 10 then Char.ofNat (48 + n) else Char.ofNat (87 + n)

/-- Two lowercase hex digits of one byte. -/
def byteToHex (b : Nat) : List Char := [hexDigit (b / 16), hexDigit (b % 16)]

/-- The 32-character lowercase hex rendering of an MD5 digest, matching
Rust's `format!("\x7b:x\x7d", md5::compute(bytes))`: the sixteen digest bytes
(state words serialized little-endian, in order a, b, c, d), each as two
hex digits. -/
def md5Hex (msg : List Nat) : String :=
  let (a, b, c, d) := md5Compute msg
  String.mk ((([a, b, c, d].map (leBytes 4)).flatten.map byteToHex).flatten)

/-! ## Protocol messages (`protocol.rs`) -/

/-- Messages sent from the Rust clipboard monitor to the VS Code extension
(`protocol.rs`, `enum OutputMessage`).  Field order follows the Rust
declaration: `content`, `timestamp`, `length`. -/
inductive OutputMessage where
  | ClipboardUpdate (content : String) (timestamp : String) (length : Nat)
  | TriggerXml (xml_payloads : List String)
  | Error (message : String)
  | Ready
  deriving DecidableEq, BEq, Repr

/-- Commands sent from the VS Code extension to the monitor
(`protocol.rs`, `enum InputCommand`). -/
inductive InputCommand where
  | Pause
  | Resume
  deriving DecidableEq, BEq, Repr

/-- Serde-JSON string escaping: `"` and backslash escaped, control
characters as `\b`, `\f`, `\n`, `\r`, `\t` or `\u00xx`, everything else
emitted verbatim. -/
def escapeJsonChar (c : Char) : List Char :=
  if c = '"' then ['\\', '"']
  else if c = '\\' then ['\\', '\\']
  else if c = '\x08' then ['\\', 'b']
  else if c = '\x0c' then ['\\', 'f']
  else if c = '\n' then ['\\', 'n']
  else if c = '\r' then ['\\', 'r']
  else if c = '\t' then ['\\', 't']
  else if c.toNat < 0x20 then
    ['\\', 'u', '0', '0', hexDigit (c.toNat / 16), hexDigit (c.toNat % 16)]
  else [c]

/-- A JSON string literal (with quotes) for `s`, as serde_json renders it. -/
def jsonStr (s : String) : String :=
  String.mk ('"' :: (s.data.map escapeJsonChar).flatten ++ ['"'])

/-- Comma-join a list of already-rendered JSON fragments. -/
def commaJoin : List String → String
  | [] => ""
  | [x] => x
  | x :: xs => x ++ "," ++ commaJoin xs

/-- Serialization of `OutputMessage` as serde_json renders it under
`\x23[serde(tag = "type", rename_all = "snake_case")]`: one JSON object, tag
field first, then the variant fields in declaration order. -/
def serializeOutputMessage : OutputMessage → String
  | .ClipboardUpdate content timestamp length =>
      "\x7b\"type\":\"clipboard_update\",\"content\":" ++ jsonStr content ++
      ",\"timestamp\":" ++ jsonStr timestamp ++
      ",\"length\":" ++ toString length ++ "\x7d"
  | .TriggerXml xml_payloads =>
      "\x7b\"type\":\"trigger_xml\",\"xml_payloads\":[" ++
      commaJoin (xml_payloads.map jsonStr) ++ "]\x7d"
  | .Error message =>
      "\x7b\"type\":\"error\",\"message\":" ++ jsonStr message ++ "\x7d"
  | .Ready => "\x7b\"type\":\"ready\"\x7d"

/-! ## The trigger regex (`main.rs` lines 17-36)

`check_for_triggers` compiles `XML_COMMAND_REGEX` with `regex::Regex::new`
and calls `.unwrap()` on the result.  The pattern contains the
backreference `\2` (to force the closing tag to repeat the captured tag
name); the `regex` crate compiles patterns to finite automata and rejects
backreferences at parse time (`regex-syntax` error
`UnsupportedBackreference`, default features, no `octal` feature), so
`Regex::new` returns `Err` and the `.unwrap()` panics.  Panics are modelled
as `Except.error`. -/

/-- The pattern constant `XML_COMMAND_REGEX` from `main.rs` line 19. -/
def XML_COMMAND_REGEX : String :=
  "(?s)(<qdrant-(file|search|read).*?>(.*?)</qdrant-\\2>|<qdrant-(file|search|read).*?/>)"

/-- Scan of a pattern for a backreference escape: a backslash followed by a
digit `1`-`9` (the construct `regex-syntax` rejects with "backreferences
are not supported"; with default crate features `\1`-`\9` are never octal
escapes).  An escaped backslash consumes both characters, so `\\2` is not a
backreference. -/
def hasBackrefEscape : List Char → Bool
  | '\\' :: c :: rest =>
      if '1' ≤ c ∧ c ≤ '9' then true else hasBackrefEscape rest
  | _ :: rest => hasBackrefEscape rest
  | [] => false

/-- Compiled-regex handle; only the pattern is retained. -/
structure Regex where
  pattern : String
  deriving Repr

/-- Model of `regex::Regex::new`: patterns containing a backreference
escape are rejected at parse time, as the `regex` crate does; the program
only ever compiles `XML_COMMAND_REGEX`, which is rejected. -/
def Regex.new (p : String) : Except String Regex :=
  if hasBackrefEscape p.data then
    .error "regex parse error: backreferences are not supported"
  else
    .ok ⟨p⟩

/-- Index of the first occurrence of `needle` in `hay`, if any. -/
def findSubIdx (needle : List Char) : List Char → Option Nat
  | [] => if needle = [] then some 0 else none
  | c :: rest =>
      if needle.isPrefixOf (c :: rest) then some 0
      else (findSubIdx needle rest).map (· + 1)

/-- Length of a match of the qdrant tag pattern starting exactly at the
head of `cs`, if any: the paired alternative
`<qdrant-TAG.*?>(.*?)</qdrant-TAG>` is tried before the self-closing
alternative `<qdrant-TAG.*?/>`, with lazy quantifiers in dot-all mode, for
`TAG` among `file`, `search`, `read` (mutually exclusive literals). -/
def matchQdrantAt (cs : List Char) : Option Nat :=
  let tryTag := fun (tag : String) =>
    let pre := ("<qdrant-" ++ tag).data
    if pre.isPrefixOf cs then
      let rest := cs.drop pre.length
      let paired :=
        match findSubIdx ['>'] rest with
        | none => none
        | some i =>
            let closing := ("</qdrant-" ++ tag ++ ">").data
            match findSubIdx closing (rest.drop (i + 1)) with
            | none => none
            | some j => some (pre.length + i + 1 + j + closing.length)
      match paired with
      | some n => some n
      | none =>
          match findSubIdx ['/', '>'] rest with
          | none => none
          | some i => some (pre.length + i + 2)
    else none
  match tryTag "file" with
  | some n => some n
  | none =>
      match tryTag "search" with
      | some n => some n
      | none => tryTag "read"

/-- Fuel-indexed scan collecting non-overlapping leftmost matches of the
qdrant tag pattern, full matched spans in order of appearance. -/
def qdrantScanGo : Nat → List Char → List String
  | 0, _ => []
  | _, [] => []
  | fuel + 1, l =>
      match matchQdrantAt l with
      | some n => String.mk (l.take n) :: qdrantScanGo fuel (l.drop n)
      | none =>
          match l with
          | [] => []
          | _ :: rest => qdrantScanGo fuel rest

/-- Model of `Regex::find_iter(content)` followed by `as_str` on each
match, for the one pattern this program ever builds (`XML_COMMAND_REGEX`):
all non-overlapping leftmost matches, each as its full text span including
the tags, in first-to-last order.  Unreachable at runtime, because
`Regex.new` rejects the pattern before a `Regex` value ever exists. -/
def Regex.findIter (_re : Regex) (content : String) : List String :=
  qdrantScanGo content.data.length content.data

/-- Embedding of `check_for_triggers` (`main.rs` lines 22-36).  The
`.unwrap()` on `Regex::new` becomes the `Except.error` branch; on a
successfully compiled regex the full matched spans are collected and a
`TriggerXml` message is returned when the list is non-empty. -/
def checkForTriggers (content : String) : Except String (Option OutputMessage) :=
  match Regex.new XML_COMMAND_REGEX with
  | .error e =>
      .error ("called Result::unwrap() on an Err value: " ++ e)
  | .ok re =>
      let xml_payloads := re.findIter content
      if !xml_payloads.isEmpty then
        .ok (some (.TriggerXml xml_payloads))
      else
        .ok none

/-! ## Change detection and `process_clipboard_content` (`main.rs` 39-62) -/

/-- The content fingerprint of `process_clipboard_content` lines 43-44:
`format!("\x7b:x\x7d", md5::compute(content.as_bytes()))`. -/
def computeHash (content : String) : String :=
  md5Hex (utf8Bytes content)

/-- The change-detection step of `process_clipboard_content` (lines 43-49),
as the `ChangeDetector` contract of the spec: the new fingerprint together
with whether it differs from the previous one (`none` counts as changed). -/
def detect (content : String) (lastHash : Option String) : String × Bool :=
  let currentHash := computeHash content
  (currentHash, !(lastHash == some currentHash))

/-- The `ClipboardUpdate` message built at `main.rs` lines 52-56:
`length` is `content.len()`, the UTF-8 byte length of the content. -/
def mkClipboardUpdate (content now : String) : OutputMessage :=
  .ClipboardUpdate content now (utf8Bytes content).length

/-- Embedding of `process_clipboard_content` (`main.rs` lines 39-62).
`Utc::now().to_rfc3339()` is the impure parameter `now`.  When the digest
equals the previous hash the function returns no messages; otherwise it
builds the update message and scans for triggers — and the panic inside
`check_for_triggers` propagates as `Except.error`. -/
def processClipboardContent (content : String) (lastHash : Option String)
    (now : String) :
    Except String (Option OutputMessage × Option OutputMessage × String) :=
  let currentHash := computeHash content
  if lastHash == some currentHash then
    .ok (none, none, currentHash)
  else
    let updateMsg := some (mkClipboardUpdate content now)
    match checkForTriggers content with
    | .error e => .error e
    | .ok triggerMsg => .ok (updateMsg, triggerMsg, currentHash)

/-! ## JSON parsing and the input decoder (`input_listener`, `main.rs` 74-108)

`input_listener` decodes each stdin line with
`serde_json::from_str::<InputCommand>`.  We model that with a small JSON
parser followed by the internally-tagged-enum decoding serde performs for
`\x23[serde(tag = "command", rename_all = "snake_case")]`: the input must be a
JSON object, the `command` member must be the string `pause` or `resume`,
and other members are ignored.  Error message texts are abbreviated
relative to serde's. -/

/-- A parsed JSON value; numbers are kept as their lexeme. -/
inductive JsonValue where
  | jnull
  | jbool (b : Bool)
  | jnum (lexeme : String)
  | jstr (s : String)
  | jarr (items : List JsonValue)
  | jobj (fields : List (String × JsonValue))
  deriving Repr

/-- Drop leading JSON whitespace. -/
def skipWs (cs : List Char) : List Char :=
  cs.dropWhile (fun c => c == ' ' || c == '\t' || c == '\n' || c == '\r')

/-- Value of a hexadecimal digit character, if it is one. -/
def hexVal (c : Char) : Option Nat :=
  if '0' ≤ c ∧ c ≤ '9' then some (c.toNat - 48)
  else if 'a' ≤ c ∧ c ≤ 'f' then some (c.toNat - 87)
  else if 'A' ≤ c ∧ c ≤ 'F' then some (c.toNat - 55)
  else none

/-- Single-character JSON string escapes. -/
def escChar (c : Char) : Option Char :=
  if c = '"' then some '"'
  else if c = '\\' then some '\\'
  else if c = '/' then some '/'
  else if c = 'b' then some '\x08'
  else if c = 'f' then some '\x0c'
  else if c = 'n' then some '\n'
  else if c = 'r' then some '\r'
  else if c = 't' then some '\t'
  else none

/-- Parse the body of a JSON string after the opening quote: the decoded
characters and the remaining input after the closing quote. -/
def parseJStrBody : List Char → Option (List Char × List Char)
  | '"' :: rest => some ([], rest)
  | '\\' :: 'u' :: h1 :: h2 :: h3 :: h4 :: rest => do
      let d1 ← hexVal h1
      let d2 ← hexVal h2
      let d3 ← hexVal h3
      let d4 ← hexVal h4
      let (s, r) ← parseJStrBody rest
      pure (Char.ofNat (4096 * d1 + 256 * d2 + 16 * d3 + d4) :: s, r)
  | '\\' :: c :: rest => do
      let e ← escChar c
      let (s, r) ← parseJStrBody rest
      pure (e :: s, r)
  | c :: rest =>
      if c.toNat < 0x20 then none
      else (parseJStrBody rest).map (fun p => (c :: p.1, p.2))
  | [] => none

/-- One or more decimal digits. -/
def digits1 (cs : List Char) : Option (List Char × List Char) :=
  let ds := cs.takeWhile Char.isDigit
  if ds.isEmpty then none else some (ds, cs.drop ds.length)

/-- Parse a JSON number lexeme: optional minus, integer part, optional
fraction, optional exponent. -/
def parseJNum (cs : List Char) : Option (List Char × List Char) := do
  let (sign, cs1) := match cs with
    | '-' :: r => (['-'], r)
    | _ => ([], cs)
  let (ip, cs2) ← digits1 cs1
  let (fp, cs3) := match cs2 with
    | '.' :: r =>
        match digits1 r with
        | some (ds, r') => ('.' :: ds, r')
        | none => ([], cs2)
    | _ => ([], cs2)
  let (ep, cs4) := match cs3 with
    | e :: r =>
        if e = 'e' ∨ e = 'E' then
          match r with
          | s :: r' =>
              if s = '+' ∨ s = '-' then
                match digits1 r' with
                | some (ds, r'') => (e :: s :: ds, r'')
                | none => ([], cs3)
              else
                match digits1 r with
                | some (ds, r'') => (e :: ds, r'')
                | none => ([], cs3)
          | [] => ([], cs3)
        else ([], cs3)
    | [] => ([], cs3)
  pure (sign ++ ip ++ fp ++ ep, cs4)

mutual

/-- Fuel-indexed recursive-descent parser for one JSON value. -/
def parseValue : Nat → List Char → Except String (JsonValue × List Char)
  | 0, _ => .error "recursion limit exceeded"
  | fuel + 1, cs =>
      match skipWs cs with
      | 'n' :: 'u' :: 'l' :: 'l' :: rest => .ok (.jnull, rest)
      | 't' :: 'r' :: 'u' :: 'e' :: rest => .ok (.jbool true, rest)
      | 'f' :: 'a' :: 'l' :: 's' :: 'e' :: rest => .ok (.jbool false, rest)
      | '"' :: rest =>
          match parseJStrBody rest with
          | some (s, r) => .ok (.jstr (String.mk s), r)
          | none => .error "invalid string"
      | '[' :: rest =>
          (match skipWs rest with
           | ']' :: r => .ok (.jarr [], r)
           | _ => parseElems fuel [] rest)
      | c :: rest =>
          if c = '\x7b' then
            match skipWs rest with
            | d :: r =>
                if d = '\x7d' then .ok (.jobj [], r)
                else parseMembers fuel [] rest
            | [] => .error "unexpected end of input"
          else if c = '-' ∨ c.isDigit then
            match parseJNum (c :: rest) with
            | some (lex, r) => .ok (.jnum (String.mk lex), r)
            | none => .error "invalid number"
          else .error "expected value"
      | [] => .error "expected value"

/-- Parse the members of a JSON object (after the opening brace). -/
def parseMembers : Nat → List (String × JsonValue) → List Char →
    Except String (JsonValue × List Char)
  | 0, _, _ => .error "recursion limit exceeded"
  | fuel + 1, acc, cs =>
      match skipWs cs with
      | '"' :: rest =>
          match parseJStrBody rest with
          | none => .error "invalid string"
          | some (k, r1) =>
              match skipWs r1 with
              | ':' :: r2 =>
                  match parseValue fuel r2 with
                  | .error e => .error e
                  | .ok (v, r3) =>
                      match skipWs r3 with
                      | ',' :: r4 => parseMembers fuel (acc ++ [(String.mk k, v)]) r4
                      | d :: r4 =>
                          if d = '\x7d' then .ok (.jobj (acc ++ [(String.mk k, v)]), r4)
                          else .error "expected comma or end of object"
                      | [] => .error "unexpected end of input"
              | _ => .error "expected colon"
      | _ => .error "expected object key"

/-- Parse the elements of a JSON array (after the opening bracket). -/
def parseElems : Nat → List JsonValue → List Char →
    Except String (JsonValue × List Char)
  | 0, _, _ => .error "recursion limit exceeded"
  | fuel + 1, acc, cs =>
      match parseValue fuel cs with
      | .error e => .error e
      | .ok (v, r1) =>
          match skipWs r1 with
          | ',' :: r2 => parseElems fuel (acc ++ [v]) r2
          | ']' :: r2 => .ok (.jarr (acc ++ [v]), r2)
          | _ => .error "expected comma or end of array"

end

/-- Parse a complete JSON document: one value and nothing but whitespace
after it, as `serde_json::from_str` requires. -/
def jsonParse (s : String) : Except String JsonValue :=
  match parseValue (s.length + 1) s.data with
  | .error e => .error e
  | .ok (v, rest) =>
      if (skipWs rest).isEmpty then .ok v else .error "trailing characters"

/-- First value bound to `key` in an object's member list. -/
def jsonLookup (key : String) : List (String × JsonValue) → Option JsonValue
  | [] => none
  | (k, v) :: rest => if k = key then some v else jsonLookup key rest

/-- Model of `serde_json::from_str::<InputCommand>`: the line must be a
JSON object whose `command` member is `"pause"` or `"resume"`; other
members are ignored (internally tagged unit variants). -/
def decodeInputCommand (s : String) : Except String InputCommand :=
  match jsonParse s with
  | .error e => .error e
  | .ok (.jobj fields) =>
      match jsonLookup "command" fields with
      | some (.jstr "pause") => .ok .Pause
      | some (.jstr "resume") => .ok .Resume
      | some (.jstr other) => .error ("unknown variant " ++ other)
      | some _ => .error "invalid type for tag command"
      | none => .error "missing field command"
  | .ok _ => .error "invalid type: expected a JSON object"

/-! ## The control listener (`input_listener`, `main.rs` 74-108) -/

/-- Effect of a decoded command on the shared `IS_MONITORING_ACTIVE` flag:
`Pause` stores `false`, `Resume` stores `true` (`main.rs` 82-93). -/
def applyCommand : InputCommand → Bool → Bool
  | .Pause, _ => false
  | .Resume, _ => true

/-- Embedding of `input_listener`: fold over the stdin line results (an
`Except.error` is a failed `read_line`, which breaks the loop after one
diagnostic).  Returns the final monitoring flag, the lines written to the
primary output stream (stdout), and the diagnostics written to stderr.
The listener never writes to stdout: the confirmation sends in the source
are commented out. -/
def runListener : List (Except String String) → Bool →
    Bool × List String × List String
  | [], s => (s, [], [])
  | .error e :: _, s => (s, [], ["Rust Input Read Error: " ++ e])
  | .ok l :: rest, s =>
      match decodeInputCommand l with
      | .ok cmd => runListener rest (applyCommand cmd s)
      | .error e =>
          let r := runListener rest s
          (r.1, r.2.1,
           ("Rust Input Parsing Error: " ++ e ++ " | Raw: " ++ l) :: r.2.2)

/-! ## The main polling loop (`main`, `main.rs` 110-163)

One iteration of the loop is driven by environment inputs: the value of
the shared flag at the pause check, the result of `clipboard.get_text()`,
the timestamp, and whether each attempted stdout write succeeds.  Sleeping
is not modelled.  A Rust panic aborts the process (non-zero status); a
`break` leaves the loop and `main` returns `Ok(())`, so the process exits
with status zero. -/

/-- Environment of one polling cycle. -/
structure CycleInput where
  active : Bool
  readResult : Option String
  now : String
  updateWriteOk : Bool
  triggerWriteOk : Bool
  deriving DecidableEq, Repr

/-- Orchestrator-side state: the `last_hash` variable plus the stdout
history (messages successfully written, and all write attempts). -/
structure LoopState where
  lastHash : Option String
  written : List OutputMessage
  attempted : List OutputMessage
  deriving DecidableEq, Repr

/-- How a cycle ends: fall through to the next iteration, `break`, or a
panic. -/
inductive CycleResult where
  | next
  | breakOut
  | panicked (e : String)
  deriving DecidableEq, Repr

/-- Embedding of `send_json`: record the attempt and, when the write
succeeds (`ok`), the written message.  Returns whether it succeeded. -/
def sendJson (msg : OutputMessage) (ok : Bool) (st : LoopState) :
    Bool × LoopState :=
  (ok, { st with
         attempted := st.attempted ++ [msg],
         written := if ok then st.written ++ [msg] else st.written })

/-- One iteration of the polling loop body (`main.rs` 132-159): skip
everything while paused, ignore read errors, otherwise process the
content, send the update and trigger messages (breaking on a failed
write), and store the new hash. -/
def cycle (inp : CycleInput) (st : LoopState) : LoopState × CycleResult :=
  if !inp.active then (st, .next)
  else
    match inp.readResult with
    | none => (st, .next)
    | some content =>
        match processClipboardContent content st.lastHash inp.now with
        | .error e => (st, .panicked e)
        | .ok (updateMsg, triggerMsg, newHash) =>
            let sendTriggerThen := fun (st1 : LoopState) =>
              match triggerMsg with
              | some m =>
                  let r2 := sendJson m inp.triggerWriteOk st1
                  if !r2.1 then (r2.2, CycleResult.breakOut)
                  else ({ r2.2 with lastHash := some newHash }, CycleResult.next)
              | none => ({ st1 with lastHash := some newHash }, CycleResult.next)
            match updateMsg with
            | some m =>
                let r1 := sendJson m inp.updateWriteOk st
                if !r1.1 then (r1.2, .breakOut)
                else sendTriggerThen r1.2
            | none => sendTriggerThen st

/-- How a finite run of the loop ends. -/
inductive LoopResult where
  | stillRunning
  | breakExit
  | panicked (e : String)
  deriving DecidableEq, Repr

/-- Run the polling loop over a finite list of cycle environments. -/
def runLoop : List CycleInput → LoopState → LoopState × LoopResult
  | [], st => (st, .stillRunning)
  | inp :: rest, st =>
      match cycle inp st with
      | (st', .next) => runLoop rest st'
      | (st', .breakOut) => (st', .breakExit)
      | (st', CycleResult.panicked e) => (st', .panicked e)

/-- Environment of a whole process run. -/
structure MainInput where
  clipboardInitOk : Bool
  initErrMsg : String
  errorWriteOk : Bool
  readyWriteOk : Bool
  cycles : List CycleInput
  deriving DecidableEq, Repr

/-- How the process ends: `exitedErr` is `main` returning `Err(..)`
(non-zero status), `exitedOk` is `main` returning `Ok(())` (status zero),
`panicked` is an aborting panic (non-zero status). -/
inductive MainResult where
  | exitedErr
  | exitedOk
  | panicked (e : String)
  | stillRunning
  deriving DecidableEq, Repr

/-- Observable outcome of a run: the messages successfully written to
stdout, all attempted stdout writes, and how the process ended. -/
structure MainOutcome where
  written : List OutputMessage
  attempted : List OutputMessage
  result : MainResult
  deriving DecidableEq, Repr

/-- Embedding of `main` (`main.rs` 110-163).  On clipboard initialization
failure the `Error` message write is attempted with its result discarded
and `main` returns `Err`.  Otherwise `Ready` is sent (a failure there
propagates through `?` as `Err`), and the polling loop runs; leaving the
loop through `break` falls through to `Ok(())`. -/
def runMain (mi : MainInput) : MainOutcome :=
  if !mi.clipboardInitOk then
    let errMsg := OutputMessage.Error ("Failed to init Clipboard: " ++ mi.initErrMsg)
    { written := if mi.errorWriteOk then [errMsg] else [],
      attempted := [errMsg],
      result := .exitedErr }
  else if !mi.readyWriteOk then
    { written := [], attempted := [.Ready], result := .exitedErr }
  else
    let lr := runLoop mi.cycles
      { lastHash := none, written := [.Ready], attempted := [.Ready] }
    { written := lr.1.written,
      attempted := lr.1.attempted,
      result :=
        match lr.2 with
        | .stillRunning => .stillRunning
        | .breakExit => .exitedOk
        | .panicked e => .panicked e }

/-! ## Helper lemmas -/

/-- The pattern the program compiles does contain a backreference escape,
so the modelled `Regex::new` rejects it on every call. -/
lemma checkForTriggers_always_errs (c : String) :
    checkForTriggers c =
      .error "called Result::unwrap() on an Err value: regex parse error: backreferences are not supported" :=
  rfl

/-- `process_clipboard_content` can only return successfully in its
"identical to last hash" branch: both messages are `none`, the returned
hash is the content's digest, and the previous hash already was that
digest. -/
lemma process_ok_inv {c : String} {l : Option String} {now : String}
    {u t : Option OutputMessage} {h : String}
    (hp : processClipboardContent c l now = .ok (u, t, h)) :
    u = none ∧ t = none ∧ h = computeHash c ∧ l = some (computeHash c) := by
  simp only [processClipboardContent] at hp
  split at hp
  · rename_i hbeq
    obtain ⟨h1, h2, h3⟩ : none = u ∧ none = t ∧ computeHash c = h := by
      simpa using hp
    exact ⟨h1.symm, h2.symm, h3.symm, eq_of_beq hbeq⟩
  · rw [checkForTriggers_always_errs] at hp
    simp at hp

/-- A cycle either falls through with an unchanged state or panics with an
unchanged state: the loop's `send_json` calls are unreachable, because a
successful `process_clipboard_content` carries no messages and stores back
the hash that was already stored. -/
lemma cycle_pure (inp : CycleInput) (st : LoopState) :
    cycle inp st = (st, CycleResult.next) ∨
      ∃ e, cycle inp st = (st, CycleResult.panicked e) := by
  unfold cycle
  split
  · exact Or.inl rfl
  · split
    · exact Or.inl rfl
    · rename_i content heq
      cases hproc : processClipboardContent content st.lastHash inp.now with
      | error e => exact Or.inr ⟨e, by simp [hproc]⟩
      | ok x =>
          obtain ⟨u, t, h⟩ := x
          obtain ⟨hu, ht, hh, hl⟩ := process_ok_inv hproc
          subst hu ht hh
          have hst : { st with lastHash := some (computeHash content) } = st := by
            cases st
            simp_all
          exact Or.inl (by simp [hproc, hst])

/-- The polling loop never writes to stdout (nor even attempts a write):
every send in its body is dead code. -/
lemma runLoop_writes (inputs : List CycleInput) (st : LoopState) :
    (runLoop inputs st).1.written = st.written ∧
      (runLoop inputs st).1.attempted = st.attempted := by
  induction inputs generalizing st with
  | nil => simp [runLoop]
  | cons inp rest ih =>
      rcases cycle_pure inp st with hc | ⟨e, hc⟩
      · rw [runLoop, hc]
        exact ih st
      · rw [runLoop, hc]
        exact ⟨rfl, rfl⟩

/-- The control listener never writes anything to the primary output
stream. -/
lemma runListener_stdout (inputs : List (Except String String)) (s : Bool) :
    (runListener inputs s).2.1 = [] := by
  induction inputs generalizing s with
  | nil => rfl
  | cons line rest ih =>
      cases line with
      | error e => rfl
      | ok l =>
          cases hd : decodeInputCommand l with
          | ok cmd => simp [runListener, hd, ih]
          | error e => simp [runListener, hd, ih]

/-- Every UTF-8 encoding is at least one byte. -/
lemma utf8EncodeChar_len_pos (c : Char) : 1 ≤ (utf8EncodeChar c).length := by
  simp only [utf8EncodeChar]
  split_ifs <;> simp

/-- A non-ASCII scalar value encodes to at least two bytes. -/
lemma utf8EncodeChar_len_two {c : Char} (h : 0x80 ≤ c.toNat) :
    2 ≤ (utf8EncodeChar c).length := by
  simp only [utf8EncodeChar]
  split_ifs with h1 h2 h3
  · exact absurd h1 (by omega)
  · simp
  · simp
  · simp

/-- A string never has more characters than UTF-8 bytes. -/
lemma length_le_flatten (l : List Char) :
    l.length ≤ ((l.map utf8EncodeChar).flatten).length := by
  induction l with
  | nil => simp
  | cons a as ih =>
      simp only [List.map_cons, List.flatten_cons, List.length_append,
        List.length_cons]
      have := utf8EncodeChar_len_pos a
      omega

/-- A string containing a non-ASCII character has strictly more UTF-8
bytes than characters. -/
lemma length_lt_flatten (l : List Char) (c : Char) (hmem : c ∈ l)
    (hge : 0x80 ≤ c.toNat) :
    l.length < ((l.map utf8EncodeChar).flatten).length := by
  induction l with
  | nil => cases hmem
  | cons a as ih =>
      simp only [List.map_cons, List.flatten_cons, List.length_append,
        List.length_cons]
      rcases List.mem_cons.mp hmem with rfl | hmem'
      · have h2 := utf8EncodeChar_len_two hge
        have h3 := length_le_flatten as
        omega
      · have h1 := utf8EncodeChar_len_pos a
        have h2 := ih hmem'
        omega

/-! ## Claim theorems -/

/-- C1.  The claim says `process_clipboard_content` produces a
`ClipboardUpdate` if and only if the fingerprint differs from the last
fingerprint (no previous fingerprint counting as changed).  Evaluating the
code at content `"Test Data"` with no previous fingerprint: the
fingerprint does differ (`changed = true`), yet the function produces no
`ClipboardUpdate` — it panics, because it calls `check_for_triggers`,
whose `Regex::new(..).unwrap()` fails on the backreference `\2`. -/
theorem claim1_update_iff_changed_fails :
    processClipboardContent "Test Data" none "2025-01-01T00:00:00+00:00" =
      .error "called Result::unwrap() on an Err value: regex parse error: backreferences are not supported" ∧
    (detect "Test Data" none).2 = true :=
  ⟨rfl, rfl⟩

/-- C2.  The claim says a trigger scan over content with no qdrant markup
completes without error or panic, and in particular that the `unwrap` on
`Regex::new` never fails.  In fact `Regex::new` rejects
`XML_COMMAND_REGEX` (the pattern contains the backreference `\2`, which
the `regex` crate does not support), so `check_for_triggers` panics on
every input, markup or not. -/
theorem claim2_scan_without_markup_panics :
    Regex.new XML_COMMAND_REGEX =
      .error "regex parse error: backreferences are not supported" ∧
    checkForTriggers "just some plain clipboard text with no markup" =
      .error "called Result::unwrap() on an Err value: regex parse error: backreferences are not supported" :=
  ⟨rfl, rfl⟩

/-- C3.  The claim says content containing qdrant markup yields a
`TriggerXml` whose payloads are exactly the full matched spans in order.
The intended matching semantics of the pattern would indeed extract
exactly the full tag span (second conjunct, over the modelled matcher),
but `check_for_triggers` never gets there: it panics on every input
because the pattern does not compile (first conjunct). -/
theorem claim3_trigger_extraction_panics :
    checkForTriggers "<qdrant-search>hello</qdrant-search>" =
      .error "called Result::unwrap() on an Err value: regex parse error: backreferences are not supported" ∧
    Regex.findIter (Regex.mk XML_COMMAND_REGEX)
        "<qdrant-search>hello</qdrant-search>" =
      ["<qdrant-search>hello</qdrant-search>"] :=
  ⟨rfl, by decide⟩

/-- C4.  The claim says a failed stdout write during the polling loop
terminates the loop and the process exits non-zero.  In the code the
loop's `send_json` calls are unreachable: on any changed content
`process_clipboard_content` panics first (and on unchanged content there
is no message), as this evaluation of a one-cycle run shows — only the
`Ready` write is ever attempted; moreover the `break` path falls through
to `Ok(())`, i.e. exit status zero (`MainResult.exitedOk` in the
embedding), not non-zero. -/
theorem claim4_loop_write_failure_unreachable :
    runMain
      { clipboardInitOk := true, initErrMsg := "", errorWriteOk := true,
        readyWriteOk := true,
        cycles := [{ active := true, readResult := some "x",
                     now := "2025-01-01T00:00:00+00:00",
                     updateWriteOk := false, triggerWriteOk := false }] } =
      { written := [.Ready], attempted := [.Ready],
        result := .panicked "called Result::unwrap() on an Err value: regex parse error: backreferences are not supported" } :=
  rfl

/-- C5.  In every run whose clipboard initialization and `Ready` write
succeed, the messages written to stdout are exactly `[Ready]`: `Ready` is
emitted exactly once, as the first message, before any polling (the loop
itself never writes), and its wire form is exactly the JSON line
`\x7b"type":"ready"\x7d`. -/
theorem claim5_ready_first_exactly_once (mi : MainInput)
    (hinit : mi.clipboardInitOk = true) (hready : mi.readyWriteOk = true) :
    (runMain mi).written = [OutputMessage.Ready] ∧
    (runMain mi).attempted = [OutputMessage.Ready] ∧
    serializeOutputMessage .Ready = "\x7b\"type\":\"ready\"\x7d" := by
  have h := runLoop_writes mi.cycles
    { lastHash := none, written := [.Ready], attempted := [.Ready] }
  refine ⟨?_, ?_, rfl⟩ <;>
    simp [runMain, hinit, hready, h.1, h.2]

/-- C5 witness: a concrete two-cycle run. -/
theorem claim5_ready_first_exactly_once_witness :
    (runMain
      { clipboardInitOk := true, initErrMsg := "", errorWriteOk := true,
        readyWriteOk := true,
        cycles := [{ active := false, readResult := some "a", now := "t",
                     updateWriteOk := true, triggerWriteOk := true },
                   { active := true, readResult := none, now := "t",
                     updateWriteOk := true, triggerWriteOk := true }] }).written =
      [OutputMessage.Ready] ∧
    (runMain
      { clipboardInitOk := true, initErrMsg := "", errorWriteOk := true,
        readyWriteOk := true,
        cycles := [{ active := false, readResult := some "a", now := "t",
                     updateWriteOk := true, triggerWriteOk := true },
                   { active := true, readResult := none, now := "t",
                     updateWriteOk := true, triggerWriteOk := true }] }).attempted =
      [OutputMessage.Ready] ∧
    serializeOutputMessage .Ready = "\x7b\"type\":\"ready\"\x7d" :=
  claim5_ready_first_exactly_once _ rfl rfl

/-- C6.  A cycle that starts with the monitoring flag `false` performs no
clipboard read (the result does not depend on `readResult`), emits no
message, and leaves the whole state — including the last fingerprint —
unchanged; moreover running the loop with a paused cycle in front equals
running it without that cycle, so no backlog of changes missed during the
pause is ever reported and the next active poll compares only the
then-current clipboard state against the last known fingerprint. -/
theorem claim6_paused_cycle_is_noop (inp : CycleInput) (st : LoopState)
    (rest : List CycleInput) (hpause : inp.active = false) :
    cycle inp st = (st, CycleResult.next) ∧
    runLoop (inp :: rest) st = runLoop rest st := by
  have hc : cycle inp st = (st, CycleResult.next) := by
    simp [cycle, hpause]
  exact ⟨hc, by rw [runLoop, hc]⟩

/-- C6 witness: a concrete paused cycle with changed clipboard content. -/
theorem claim6_paused_cycle_is_noop_witness :
    cycle
      { active := false, readResult := some "changed content", now := "t",
        updateWriteOk := true, triggerWriteOk := true }
      { lastHash := none, written := [.Ready], attempted := [.Ready] } =
      ({ lastHash := none, written := [.Ready], attempted := [.Ready] },
        CycleResult.next) ∧
    runLoop
      [{ active := false, readResult := some "changed content", now := "t",
         updateWriteOk := true, triggerWriteOk := true }]
      { lastHash := none, written := [.Ready], attempted := [.Ready] } =
    runLoop []
      { lastHash := none, written := [.Ready], attempted := [.Ready] } :=
  claim6_paused_cycle_is_noop _ _ _ rfl

/-- C7.  A successfully decoded `Pause` stores `false` in the shared flag
and a successfully decoded `Resume` stores `true`, whatever the previous
value; and delivering the same successfully decoded command line twice in
a row drives the listener to exactly the state of delivering it once. -/
theorem claim7_pause_resume_idempotent (s : Bool) (l : String)
    (cmd : InputCommand) (rest : List (Except String String))
    (hdec : decodeInputCommand l = .ok cmd) :
    applyCommand .Pause s = false ∧
    applyCommand .Resume s = true ∧
    runListener (.ok l :: .ok l :: rest) s = runListener (.ok l :: rest) s := by
  refine ⟨rfl, rfl, ?_⟩
  cases cmd <;> simp [runListener, hdec, applyCommand]

/-- C7 witness: the concrete line `\x7b"command":"pause"\x7d` decodes to
`Pause`, and duplicating it is a no-op. -/
theorem claim7_pause_resume_idempotent_witness :
    applyCommand .Pause true = false ∧
    applyCommand .Resume true = true ∧
    runListener [.ok "\x7b\"command\":\"pause\"\x7d",
                 .ok "\x7b\"command\":\"pause\"\x7d"] true =
      runListener [.ok "\x7b\"command\":\"pause\"\x7d"] true :=
  claim7_pause_resume_idempotent true "\x7b\"command\":\"pause\"\x7d"
    .Pause [] rfl

/-- C8.  A line that fails to decode leaves the monitoring state exactly
where the rest of the run leaves it (the bad line has no effect), writes
nothing to the primary output stream, and only prepends one diagnostic to
stderr before the listener continues with the subsequent lines. -/
theorem claim8_malformed_line_ignored (s : Bool) (l : String) (e : String)
    (rest : List (Except String String))
    (hdec : decodeInputCommand l = .error e) :
    runListener (.ok l :: rest) s =
      ((runListener rest s).1, [],
       ("Rust Input Parsing Error: " ++ e ++ " | Raw: " ++ l) ::
         (runListener rest s).2.2) := by
  simp [runListener, hdec, runListener_stdout]

/-- C8 witness: the concrete non-JSON line `garbage` is ignored and the
following `resume` line still takes effect. -/
theorem claim8_malformed_line_ignored_witness :
    runListener [.ok "garbage", .ok "\x7b\"command\":\"resume\"\x7d"] false =
      ((runListener [.ok "\x7b\"command\":\"resume\"\x7d"] false).1, [],
       ("Rust Input Parsing Error: " ++ "expected value" ++ " | Raw: " ++ "garbage") ::
         (runListener [.ok "\x7b\"command\":\"resume\"\x7d"] false).2.2) :=
  claim8_malformed_line_ignored false "garbage" "expected value"
    [.ok "\x7b\"command\":\"resume\"\x7d"] rfl

/-- C9.  Running the change-detection step on `C` and feeding the
resulting fingerprint back as the last fingerprint yields `changed =
false` and the identical fingerprint; the fingerprint is the md5 digest
of the content and depends only on the raw UTF-8 bytes; and the full
`process_clipboard_content` on such a second run returns successfully
with no messages. -/
theorem claim9_detect_idempotent_and_byte_deterministic
    (C C' : String) (last : Option String) (now : String)
    (hbytes : utf8Bytes C' = utf8Bytes C) :
    detect C (some (detect C last).1) = ((detect C last).1, false) ∧
    (detect C last).1 = computeHash C ∧
    detect C' last = detect C last ∧
    processClipboardContent C (some (detect C last).1) now =
      .ok (none, none, (detect C last).1) := by
  refine ⟨?_, rfl, ?_, ?_⟩
  · simp [detect]
  · simp [detect, computeHash, hbytes]
  · simp [processClipboardContent, detect, computeHash]

/-- C9 witness: both runs on the concrete content `"Test Data"`. -/
theorem claim9_detect_idempotent_witness :
    detect "Test Data" (some (detect "Test Data" none).1) =
      ((detect "Test Data" none).1, false) ∧
    (detect "Test Data" none).1 = computeHash "Test Data" ∧
    detect "Test Data" none = detect "Test Data" none ∧
    processClipboardContent "Test Data" (some (detect "Test Data" none).1) "t" =
      .ok (none, none, (detect "Test Data" none).1) :=
  claim9_detect_idempotent_and_byte_deterministic
    "Test Data" "Test Data" none "t" rfl

/-- C10.  The `length` field of the constructed `ClipboardUpdate` message
is `content.len()`, the UTF-8 byte length of the content — not the
character count: whenever the content contains a non-ASCII character the
reported length strictly exceeds the number of characters. -/
theorem claim10_length_is_byte_length (content now : String) (c : Char)
    (hmem : c ∈ content.data) (hge : 0x80 ≤ c.toNat) :
    mkClipboardUpdate content now =
      OutputMessage.ClipboardUpdate content now (utf8Bytes content).length ∧
    content.data.length < (utf8Bytes content).length := by
  refine ⟨rfl, ?_⟩
  unfold utf8Bytes
  exact length_lt_flatten content.data c hmem hge

/-- C10 witness: `"héllo"` has five characters but six UTF-8 bytes. -/
theorem claim10_length_is_byte_length_witness :
    mkClipboardUpdate "héllo" "2025-01-01T00:00:00+00:00" =
      OutputMessage.ClipboardUpdate "héllo" "2025-01-01T00:00:00+00:00"
        (utf8Bytes "héllo").length ∧
    "héllo".data.length < (utf8Bytes "héllo").length :=
  claim10_length_is_byte_length "héllo" "2025-01-01T00:00:00+00:00" 'é'
    (by decide) (by decide)

end ClipboardMonitor
